import Mathlib

set_option maxRecDepth 100000

/-!
Verification of the core calculation pipeline of the Firstrade tax app
(`src/App.tsx`): exchange-rate lookup with backward fallback
(`getRateForDate`), money/date parsing (`parseMoney`, `parseDateAny`,
`extractTaxFromDescription`), the three transaction calculators
(`calculateGainLoss`, `calculateDividends`, `calculateInterests`), file
classification (`processFile`'s header test and history-row partition),
year filtering and the capital-gains aggregation (`groupedGainLoss`,
`totalsGainLoss`).

Modelling conventions:
* JavaScript numbers are modelled as exact rationals (`ℚ`); `Math.floor`
  is `Int.floor`.  `parseFloat` of a string with no parseable numeric
  prefix yields `NaN` in JavaScript; this model renders that case as `0`
  (no claim under study depends on the distinction).
* `Date` objects are calendar dates (year, month, day); date-fns
  `subDays(d, 1)` is `prevDay`.  The rates object keyed by the ISO
  rendering `format(d, 'yyyy-MM-dd')` is an association list keyed by the
  date itself (the ISO rendering is injective on dates).
* date-fns `parse`/`parseISO` return an invalid-date object on
  unparseable input; per spec §4.1 ("Unrecognized formats yield none")
  this model renders that as `none`.
* React state updates (`setGainLossData …`) are modelled by the pure
  functions computing the stored values.
-/

/-- Calendar date, modelling a JavaScript `Date` at day granularity. -/
structure Date where
  year : ℤ
  month : ℕ
  day : ℕ
deriving DecidableEq

/-- Gregorian leap-year rule (as used by JavaScript dates / date-fns). -/
def isLeapYear (y : ℤ) : Bool :=
  (y % 4 == 0 && y % 100 != 0) || y % 400 == 0

/-- Number of days of month `m` of year `y`. -/
def daysInMonth (y : ℤ) (m : ℕ) : ℕ :=
  if m == 2 then (if isLeapYear y then 29 else 28)
  else if m == 4 || m == 6 || m == 9 || m == 11 then 30
  else 31

/-- date-fns `subDays(d, 1)`: the previous calendar day. -/
def prevDay (d : Date) : Date :=
  if 1 < d.day then ⟨d.year, d.month, d.day - 1⟩
  else if 1 < d.month then ⟨d.year, d.month - 1, daysInMonth d.year (d.month - 1)⟩
  else ⟨d.year - 1, 12, 31⟩

/-- The `RatesMap` object (`{ [date: string]: number }`), an association
list keyed by date.  JavaScript objects have at most one entry per key;
`lookupRate` takes the first. -/
def RatesMap : Type := List (Date × ℚ)

/-- Indexing `rates[key]`: `some r` when the key is present, `none`
(JS `undefined`) otherwise. -/
def lookupRate (rates : RatesMap) (d : Date) : Option ℚ :=
  (List.find? (fun p => p.1 == d) rates).map (fun p => p.2)

/-- Result of `getRateForDate`: `{ rate, dateUsed }`.  `dateUsed` is the
ISO string of the date used, or the sentinel `'N/A'`; modelled as
`some date` / `none`. -/
structure RateResult where
  rate : ℚ
  dateUsed : Option Date
deriving DecidableEq

/-- The `while (attempts < 10)` loop of `getRateForDate`, with the
remaining number of attempts as fuel.  `if (rates[key])` is a JavaScript
truthiness test: an entry whose value is `0` is falsy, so the loop steps
past it exactly as it steps past an absent key. -/
def getRateLoop (rates : RatesMap) : Date → ℕ → RateResult
  | _, 0 => ⟨0, none⟩
  | cur, n + 1 =>
    match lookupRate rates cur with
    | some r => if r = 0 then getRateLoop rates (prevDay cur) n else ⟨r, some cur⟩
    | none => getRateLoop rates (prevDay cur) n

/-- `getRateForDate(date, rates)` (App.tsx lines 114–126): look the date
up in the table, stepping one day backward on a miss, for at most 10
attempts; on exhaustion return rate 0 and the `'N/A'` sentinel. -/
def getRateForDate (date : Date) (rates : RatesMap) : RateResult :=
  getRateLoop rates date 10

/-- JavaScript `String.prototype.toLowerCase` (ASCII-relevant part). -/
def lowerStr (s : String) : String :=
  String.mk (s.toList.map Char.toLower)

/-- Does the text begin with the pattern (`leadsWith pat text`)? -/
def leadsWith : List Char → List Char → Bool
  | [], _ => true
  | _ :: _, [] => false
  | p :: ps, c :: cs => p == c && leadsWith ps cs

/-- Scan for the pattern at every position. -/
def hasSubAux (pat : List Char) : List Char → Bool
  | [] => pat.isEmpty
  | c :: cs => leadsWith pat (c :: cs) || hasSubAux pat cs

/-- JavaScript `s.includes(pat)`: substring containment. -/
def hasSub (s pat : String) : Bool :=
  hasSubAux pat.toList s.toList

/-- Value of a run of decimal digits. -/
def digitsVal (cs : List Char) : ℕ :=
  cs.foldl (fun a c => a * 10 + (c.toNat - 48)) 0

/-- Unsigned part of `parseFloat`: integer digits with an optional
fraction, as one exact rational. -/
def parseUnsigned (t : List Char) : Option ℚ :=
  let intPart := t.takeWhile Char.isDigit
  match t.dropWhile Char.isDigit with
  | '.' :: u =>
    let fracPart := u.takeWhile Char.isDigit
    if intPart.isEmpty && fracPart.isEmpty then none
    else some (Rat.divInt (digitsVal intPart * 10 ^ fracPart.length + digitsVal fracPart)
      (10 ^ fracPart.length))
  | _ => if intPart.isEmpty then none else some (digitsVal intPart)

/-- JavaScript `parseFloat` on a trimmed string: parse the longest valid
decimal prefix (optional sign, integer digits, optional fraction);
`none` models `NaN` (nothing parseable). -/
def parseFloatPrefix (cs : List Char) : Option ℚ :=
  match cs with
  | '-' :: t => (parseUnsigned t).map (fun q => -q)
  | '+' :: t => parseUnsigned t
  | t => parseUnsigned t

/-- JavaScript `parseFloat` applied to a raw field (leading whitespace
skipped); `NaN` modelled as 0. -/
def parseFloatJs (s : String) : ℚ :=
  (parseFloatPrefix (s.toList.dropWhile Char.isWhitespace)).getD 0

/-- The character class kept by `parseMoney`'s `replace(/[^0-9.-]/g, '')`. -/
def moneyChar (c : Char) : Bool :=
  c.isDigit || c == '.' || c == '-'

/-- `parseMoney(str)` (App.tsx lines 92–95): empty input yields 0,
otherwise strip every character that is not a digit, `.` or `-` and
parse the result as a float. -/
def parseMoney (str : String) : ℚ :=
  if str.isEmpty then 0
  else (parseFloatPrefix (str.toList.filter moneyChar)).getD 0

/-- Is every character a decimal digit (and the run nonempty)? -/
def allDigits (cs : List Char) : Bool :=
  !cs.isEmpty && cs.all Char.isDigit

/-- A candidate calendar date, validated as date-fns `parse` validates. -/
def mkValidDate (y : ℤ) (m d : ℕ) : Option Date :=
  if 1 ≤ m && m ≤ 12 && 1 ≤ d && d ≤ daysInMonth y m then some ⟨y, m, d⟩ else none

/-- Modelled from the spec: date-fns `parse(str, 'MM/dd/yyyy', …)` —
"slash-delimited month/day/year"; an invalid date yields `none`. -/
def parseSlashDate (str : String) : Option Date :=
  match str.splitOn "/" with
  | [ms, ds, ys] =>
    if allDigits ms.toList && allDigits ds.toList && allDigits ys.toList
        && ms.length ≤ 2 && ds.length ≤ 2 && ys.length == 4 then
      mkValidDate (digitsVal ys.toList) (digitsVal ms.toList) (digitsVal ds.toList)
    else none
  | _ => none

/-- Modelled from the spec: date-fns `parseISO` on `yyyy-MM-dd` —
"hyphen-delimited ISO year-month-day"; an invalid date yields `none`. -/
def parseIsoDate (str : String) : Option Date :=
  match str.splitOn "-" with
  | [ys, ms, ds] =>
    if allDigits ys.toList && allDigits ms.toList && allDigits ds.toList
        && ys.length == 4 && ms.length == 2 && ds.length == 2 then
      mkValidDate (digitsVal ys.toList) (digitsVal ms.toList) (digitsVal ds.toList)
    else none
  | _ => none

/-- `parseDateAny(str)` (App.tsx lines 98–112): empty text or text
containing `'var'` (case-insensitively — the VARIOUS convention) yields
`null`; text containing `/` is parsed as `MM/dd/yyyy`; text containing
`-` is parsed as ISO; anything else yields `null`. -/
def parseDateAny (str : String) : Option Date :=
  if str.isEmpty || hasSub (lowerStr str) "var" then none
  else if str.contains '/' then parseSlashDate str
  else if str.contains '-' then parseIsoDate str
  else none

/-- The character class `[0-9,.]` of the tax-extraction pattern. -/
def amtChar (c : Char) : Bool :=
  c.isDigit || c == ',' || c == '.'

/-- Case-insensitive literal match; returns the rest of the input. -/
def matchCaseless : List Char → List Char → Option (List Char)
  | [], rest => some rest
  | _ :: _, [] => none
  | p :: ps, c :: cs => if p.toLower == c.toLower then matchCaseless ps cs else none

/-- Try the pattern `TAX WITHHELD\s+\$?([0-9,.]+)` (case-insensitive) at
the head of the input, returning the captured amount characters. -/
def taxAmountAt (cs : List Char) : Option (List Char) :=
  (matchCaseless "TAX WITHHELD".toList cs).bind fun rest =>
    if (rest.takeWhile Char.isWhitespace).isEmpty then none
    else
      let rest2 := rest.dropWhile Char.isWhitespace
      let rest3 := match rest2 with
        | '$' :: t => t
        | t => t
      let amt := rest3.takeWhile amtChar
      if amt.isEmpty then none else some amt

/-- Scan the description left to right for the first position where the
tax pattern matches (JavaScript `String.prototype.match`). -/
def findTaxAmount : List Char → Option (List Char)
  | [] => none
  | c :: cs =>
    match taxAmountAt (c :: cs) with
    | some amt => some amt
    | none => findTaxAmount cs

/-- `extractTaxFromDescription(desc)` (App.tsx lines 129–135): match
`/TAX WITHHELD\s+\$?([0-9,.]+)/i` and `parseMoney` the capture; 0 when
the pattern is absent. -/
def extractTaxFromDescription (desc : String) : ℚ :=
  match findTaxAmount desc.toList with
  | some amt => parseMoney (String.mk amt)
  | none => 0

/-- A row of the Gain/Loss CSV (`interface GainLossRow`); fields are the
raw strings of the columns used by the calculator.  `dateAcquired` is
the `'Date Acquired'` column (possibly `"VARIOUS"`), `salesProceeds` is
`'Sales Proceeds'`, `adjustCost` is `'Adjust Cost'`, `wsLossDisallowed`
is `'WS Loss Disallowed'` and `washSales` is `'Wash Sales'`. -/
structure GainLossRow where
  symbol : String
  description : String
  quantity : String
  dateAcquired : String
  dateSold : String
  salesProceeds : String
  adjustCost : String
  wsLossDisallowed : String
  washSales : String
deriving DecidableEq

/-- A row of the transaction-history CSV (`interface HistoryRow`). -/
structure HistoryRow where
  symbol : String
  action : String
  description : String
  tradeDate : String
  amount : String
deriving DecidableEq

/-- A derived capital-gains record (`interface JpyTransaction`).
`dateAcquired` has TypeScript type `Date | null`. -/
structure JpyTransaction where
  id : ℕ
  symbol : String
  quantity : ℚ
  dateAcquired : Option Date
  dateSold : Date
  proceedsUsd : ℚ
  costUsd : ℚ
  wsDisallowed : ℚ
  rateAcquired : ℚ
  rateSold : ℚ
  proceedsJpy : ℤ
  costJpy : ℤ
  gainLossJpy : ℤ
  isWashSale : Bool
  notes : String
deriving DecidableEq

/-- A derived dividend record (`interface DividendTransaction`). -/
structure DividendTransaction where
  id : ℕ
  symbol : String
  date : Date
  amountNetUsd : ℚ
  taxUsd : ℚ
  amountGrossUsd : ℚ
  rate : ℚ
  amountGrossJpy : ℤ
  taxJpy : ℤ
  amountNetJpy : ℤ
  description : String
deriving DecidableEq

/-- A derived interest record (`interface InterestTransaction`). -/
structure InterestTransaction where
  id : ℕ
  symbol : String
  date : Date
  amountNetUsd : ℚ
  rate : ℚ
  amountNetJpy : ℤ
  description : String
deriving DecidableEq

/-- Body of `calculateGainLoss`'s `rows.map((row, idx) => …)` callback
(App.tsx lines 705–737): `null` when `'Date Sold'` does not parse;
otherwise the derived record, with an unparseable `'Date Acquired'`
replaced by the sold date (`if (!dateAcquired) dateAcquired = dateSold`)
and `isVarious` remembered for the note. -/
def calcGainLossRow (idx : ℕ) (row : GainLossRow) (currentRates : RatesMap) :
    Option JpyTransaction :=
  match parseDateAny row.dateSold with
  | none => none
  | some dateSold =>
    let acq := parseDateAny row.dateAcquired
    let isVarious := acq.isNone && hasSub (lowerStr row.dateAcquired) "var"
    let dateAcquired := acq.getD dateSold
    let proceedsUsd := parseMoney row.salesProceeds
    let costUsd := parseMoney row.adjustCost
    let wsDisallowed := parseMoney row.wsLossDisallowed
    let rateSoldData := getRateForDate dateSold currentRates
    let rateAcqData := getRateForDate dateAcquired currentRates
    let proceedsJpy := ⌊proceedsUsd * rateSoldData.rate⌋
    let costJpy := ⌊costUsd * rateAcqData.rate⌋
    some
      { id := idx
        symbol := row.symbol
        quantity := parseFloatJs row.quantity
        dateAcquired := some dateAcquired
        dateSold := dateSold
        proceedsUsd := proceedsUsd
        costUsd := costUsd
        wsDisallowed := wsDisallowed
        rateAcquired := rateAcqData.rate
        rateSold := rateSoldData.rate
        proceedsJpy := proceedsJpy
        costJpy := costJpy
        gainLossJpy := proceedsJpy - costJpy
        isWashSale := row.washSales == "YES"
        notes := if isVarious then "取得日不明(Various)"
          else if rateSoldData.rate = 0 then "レートエラー" else "" }

/-- `calculateGainLoss(rows, currentRates)` (App.tsx lines 704–740):
`rows.map((row, idx) => …).filter(Boolean)`, i.e. the per-row results
with the `null`s dropped. -/
def calculateGainLoss (rows : List GainLossRow) (currentRates : RatesMap) :
    List JpyTransaction :=
  (rows.enum).filterMap (fun p => calcGainLossRow p.1 p.2 currentRates)

/-- Body of `calculateDividends`'s per-row callback (App.tsx lines
743–765): `null` when the trade date does not parse; otherwise the
derived record with `gross = net + tax` and the three JPY amounts each
floored independently. -/
def calcDividendRow (idx : ℕ) (row : HistoryRow) (currentRates : RatesMap) :
    Option DividendTransaction :=
  match parseDateAny row.tradeDate with
  | none => none
  | some date =>
    let amountNetUsd := parseMoney row.amount
    let taxUsd := extractTaxFromDescription row.description
    let amountGrossUsd := amountNetUsd + taxUsd
    let rateData := getRateForDate date currentRates
    some
      { id := idx
        symbol := row.symbol
        date := date
        amountNetUsd := amountNetUsd
        taxUsd := taxUsd
        amountGrossUsd := amountGrossUsd
        rate := rateData.rate
        amountGrossJpy := ⌊amountGrossUsd * rateData.rate⌋
        taxJpy := ⌊taxUsd * rateData.rate⌋
        amountNetJpy := ⌊amountNetUsd * rateData.rate⌋
        description := row.description }

/-- `calculateDividends(rows, currentRates)` (App.tsx lines 742–768). -/
def calculateDividends (rows : List HistoryRow) (currentRates : RatesMap) :
    List DividendTransaction :=
  (rows.enum).filterMap (fun p => calcDividendRow p.1 p.2 currentRates)

/-- Body of `calculateInterests`'s per-row callback (App.tsx lines
771–786). -/
def calcInterestRow (idx : ℕ) (row : HistoryRow) (currentRates : RatesMap) :
    Option InterestTransaction :=
  match parseDateAny row.tradeDate with
  | none => none
  | some date =>
    let amountNetUsd := parseMoney row.amount
    let rateData := getRateForDate date currentRates
    some
      { id := idx
        symbol := row.symbol
        date := date
        amountNetUsd := amountNetUsd
        rate := rateData.rate
        amountNetJpy := ⌊amountNetUsd * rateData.rate⌋
        description := row.description }

/-- `calculateInterests(rows, currentRates)` (App.tsx lines 770–789). -/
def calculateInterests (rows : List HistoryRow) (currentRates : RatesMap) :
    List InterestTransaction :=
  (rows.enum).filterMap (fun p => calcInterestRow p.1 p.2 currentRates)

/-- `type FileType = 'GAIN_LOSS' | 'HISTORY' | 'UNKNOWN'`. -/
inductive FileType where
  | GAIN_LOSS
  | HISTORY
  | UNKNOWN
deriving DecidableEq

/-- Classification of the located header line (App.tsx lines 562–571):
lower-case it; `'sales proceeds'` selects the Gain/Loss schema, else
both `'action'` and `'amount'` select the history schema. -/
def classifyHeader (headerLine : String) : FileType :=
  let lower := lowerStr headerLine
  if hasSub lower "sales proceeds" then FileType.GAIN_LOSS
  else if hasSub lower "action" && hasSub lower "amount" then FileType.HISTORY
  else FileType.UNKNOWN

/-- The history branch of `processFile` (App.tsx lines 590–606): filter
the parsed rows to `Action === 'Dividend'`; when that subset is empty,
stop with the error message (the interest rows are never extracted);
otherwise also filter to `Action === 'Interest'` and keep both subsets
(every other action value is dropped silently). -/
def processHistoryRows (rows : List HistoryRow) :
    Except String (List HistoryRow × List HistoryRow) :=
  let divRows := rows.filter (fun r => r.action == "Dividend")
  if divRows.isEmpty then
    Except.error "配当データ(Action=Dividend)が見つかりませんでした"
  else
    Except.ok (divRows, rows.filter (fun r => r.action == "Interest"))

/-- `filteredGainLoss` (App.tsx lines 443–445): the records of the
selected year, by the sold date's calendar year. -/
def filteredGainLoss (gainLossData : List JpyTransaction) (selectedYear : ℤ) :
    List JpyTransaction :=
  gainLossData.filter (fun t => t.dateSold.year == selectedYear)

/-- `filteredDividends` (App.tsx lines 447–449). -/
def filteredDividends (dividendData : List DividendTransaction) (selectedYear : ℤ) :
    List DividendTransaction :=
  dividendData.filter (fun t => t.date.year == selectedYear)

/-- `filteredInterests` (App.tsx lines 451–453). -/
def filteredInterests (interestData : List InterestTransaction) (selectedYear : ℤ) :
    List InterestTransaction :=
  interestData.filter (fun t => t.date.year == selectedYear)

/-- Per-symbol running totals of `groupedGainLoss` (the `summary`
object). -/
structure GroupSummary where
  proceeds : ℤ
  cost : ℤ
  gainLoss : ℤ
  proceedsUsd : ℚ
  costUsd : ℚ
  gainLossUsd : ℚ
deriving DecidableEq

/-- One group of `groupedGainLoss`: the summary plus the member
transactions. -/
structure GroupData where
  summary : GroupSummary
  transactions : List JpyTransaction
deriving DecidableEq

/-- The zero-initialised group (`{ proceeds: 0, …, transactions: [] }`). -/
def emptyGroup : GroupData :=
  ⟨⟨0, 0, 0, 0, 0, 0⟩, []⟩

/-- One step of `groupedGainLoss`'s `forEach` accumulation: push the
transaction and add its amounts to the summary. -/
def addToGroup (g : GroupData) (t : JpyTransaction) : GroupData :=
  { summary :=
      { proceeds := g.summary.proceeds + t.proceedsJpy
        cost := g.summary.cost + t.costJpy
        gainLoss := g.summary.gainLoss + t.gainLossJpy
        proceedsUsd := g.summary.proceedsUsd + t.proceedsUsd
        costUsd := g.summary.costUsd + t.costUsd
        gainLossUsd := g.summary.gainLossUsd + (t.proceedsUsd - t.costUsd) }
    transactions := g.transactions ++ [t] }

/-- The group accumulated for symbol `s`: the fold over the transactions
carrying that symbol, in order. -/
def groupFor (ts : List JpyTransaction) (s : String) : GroupData :=
  (ts.filter (fun t => t.symbol == s)).foldl addToGroup emptyGroup

/-- The distinct symbols in first-occurrence order (the insertion order
of the keys of the `groups` object). -/
def symbolsOf (ts : List JpyTransaction) : List String :=
  ts.foldl (fun acc t => if acc.contains t.symbol then acc else acc ++ [t.symbol]) []

/-- Insertion step of the final `sort((a, b) => a[0].localeCompare(b[0]))`,
modelled with the string order (all keys are distinct, so the comparator
fully determines the result). -/
def insertGroup (x : String × GroupData) :
    List (String × GroupData) → List (String × GroupData)
  | [] => [x]
  | y :: ys => if x.1 < y.1 then x :: y :: ys else y :: insertGroup x ys

/-- Sort the `(symbol, group)` pairs by symbol. -/
def sortGroups (l : List (String × GroupData)) : List (String × GroupData) :=
  l.foldr insertGroup []

/-- `groupedGainLoss` (App.tsx lines 456–469): accumulate every filtered
transaction into its symbol's group, then return
`Object.entries(groups)` sorted by symbol. -/
def groupedGainLoss (ts : List JpyTransaction) : List (String × GroupData) :=
  sortGroups ((symbolsOf ts).map (fun s => (s, groupFor ts s)))

/-- Accumulator of `totalsGainLoss`'s `reduce`. -/
structure GLTotals where
  proceeds : ℤ
  cost : ℤ
  gainLoss : ℤ
  proceedsUsd : ℚ
  costUsd : ℚ
  gainLossUsd : ℚ
  wsDisallowed : ℚ
  count : ℕ
deriving DecidableEq

/-- One step of `totalsGainLoss`'s `reduce` (App.tsx lines 471–482). -/
def totalsStep (acc : GLTotals) (t : JpyTransaction) : GLTotals :=
  { proceeds := acc.proceeds + t.proceedsJpy
    cost := acc.cost + t.costJpy
    gainLoss := acc.gainLoss + t.gainLossJpy
    proceedsUsd := acc.proceedsUsd + t.proceedsUsd
    costUsd := acc.costUsd + t.costUsd
    gainLossUsd := acc.gainLossUsd + (t.proceedsUsd - t.costUsd)
    wsDisallowed := acc.wsDisallowed + t.wsDisallowed
    count := acc.count + 1 }

/-- `totalsGainLoss` (App.tsx lines 471–482): the `reduce` over the
year-filtered records from the zero accumulator. -/
def totalsGainLoss (ts : List JpyTransaction) : GLTotals :=
  ts.foldl totalsStep ⟨0, 0, 0, 0, 0, 0, 0, 0⟩

/-- A small rate table used for concrete evaluations: 14 JPY/USD on
2023-03-04 and 13 JPY/USD on 2023-01-02. -/
def wTbl : RatesMap := [(⟨2023, 3, 4⟩, 14), (⟨2023, 1, 2⟩, 13)]

/-- A rate table whose entry for 2023-03-04 stores the rate 0 (with a
nonzero rate the day before). -/
def zTbl : RatesMap := [(⟨2023, 3, 4⟩, 0), (⟨2023, 3, 3⟩, 5)]

/-- A well-formed Gain/Loss row: acquired 01/02/2023, sold 03/04/2023,
proceeds $15.00, cost $10.00. -/
def sRow : GainLossRow :=
  ⟨"AAPL", "APPLE INC", "10", "01/02/2023", "03/04/2023", "$15.00", "$10.00", "", ""⟩

/-- The record `calculateGainLoss` derives from `sRow` under `wTbl`. -/
def sTx : JpyTransaction :=
  { id := 0, symbol := "AAPL", quantity := 10, dateAcquired := some ⟨2023, 1, 2⟩,
    dateSold := ⟨2023, 3, 4⟩, proceedsUsd := 15, costUsd := 10, wsDisallowed := 0,
    rateAcquired := 13, rateSold := 14, proceedsJpy := 210, costJpy := 130,
    gainLossJpy := 80, isWashSale := false, notes := "" }

/-- A Gain/Loss row whose acquisition date is the literal `"VARIOUS"`. -/
def vRow : GainLossRow :=
  ⟨"AAPL", "APPLE INC", "10", "VARIOUS", "03/04/2023", "$15.00", "$10.00", "", ""⟩

/-- The record derived from `vRow` under `wTbl`: the sold date is
substituted for the acquisition date (so the sale rate 14 also prices
the cost) and the various-date note is set. -/
def vTx : JpyTransaction :=
  { id := 0, symbol := "AAPL", quantity := 10, dateAcquired := some ⟨2023, 3, 4⟩,
    dateSold := ⟨2023, 3, 4⟩, proceedsUsd := 15, costUsd := 10, wsDisallowed := 0,
    rateAcquired := 14, rateSold := 14, proceedsJpy := 210, costJpy := 140,
    gainLossJpy := 70, isWashSale := false, notes := "取得日不明(Various)" }

/-- A Gain/Loss row whose sold date (`"pending"`) does not parse, so the
calculator drops it. -/
def pRow : GainLossRow :=
  ⟨"MSFT", "MICROSOFT", "5", "01/02/2023", "pending", "$10.00", "$5.00", "", ""⟩

/-- A rate table with the fractional rate 3/2 on 2023-06-15. -/
def dTbl : RatesMap := [(⟨2023, 6, 15⟩, Rat.divInt 3 2)]

/-- A dividend history row: $8.50 net with $1.50 tax withheld. -/
def dRow : HistoryRow :=
  ⟨"ABC", "Dividend", "NON-RES TAX WITHHELD $1.50", "2023-06-15", "$8.50"⟩

/-- The record `calculateDividends` derives from `dRow` under `dTbl`:
gross 10 → ⌊15⌋ = 15, tax 1.5 → ⌊2.25⌋ = 2, net 8.5 → ⌊12.75⌋ = 12, so
the floored JPY gross differs from floored tax + floored net. -/
def dTx : DividendTransaction :=
  { id := 0, symbol := "ABC", date := ⟨2023, 6, 15⟩, amountNetUsd := Rat.divInt 17 2,
    taxUsd := Rat.divInt 3 2, amountGrossUsd := 10, rate := Rat.divInt 3 2,
    amountGrossJpy := 15, taxJpy := 2, amountNetJpy := 12,
    description := "NON-RES TAX WITHHELD $1.50" }

/-- An interest-only history row. -/
def hIntRow : HistoryRow :=
  ⟨"CASH", "Interest", "INTEREST ON CASH BALANCE", "2023-06-20", "$0.35"⟩

/-- A dividend history row paired with `hIntRow` in partition tests. -/
def hDivRow : HistoryRow :=
  ⟨"ABC", "Dividend", "NON-RES TAX WITHHELD $1.50", "2023-06-15", "$8.50"⟩

/-- Exhausting the window: when no probed date within the remaining fuel
has an entry, the loop returns rate 0 and the `'N/A'` sentinel. -/
theorem getRateLoop_miss (rates : RatesMap) :
    ∀ (fuel : ℕ) (d : Date), (∀ j < fuel, lookupRate rates (prevDay^[j] d) = none) →
      getRateLoop rates d fuel = ⟨0, none⟩ := by
  intro fuel
  induction fuel with
  | zero => intro d _; rfl
  | succ n ih =>
    intro d h
    have h0 := h 0 (Nat.succ_pos n)
    rw [Function.iterate_zero, id_eq] at h0
    simp only [getRateLoop, h0]
    exact ih (prevDay d) fun j hj => by
      have hj1 := h (j + 1) (Nat.succ_lt_succ hj)
      rwa [Function.iterate_succ_apply] at hj1

/-- Hitting a nonzero entry `k` steps back, all earlier probes missing,
returns that entry's rate and date. -/
theorem getRateLoop_hit (rates : RatesMap) :
    ∀ (k fuel : ℕ) (d : Date) (r : ℚ), k < fuel → r ≠ 0 →
      (∀ j < k, lookupRate rates (prevDay^[j] d) = none) →
      lookupRate rates (prevDay^[k] d) = some r →
      getRateLoop rates d fuel = ⟨r, some (prevDay^[k] d)⟩ := by
  intro k
  induction k with
  | zero =>
    intro fuel d r hk hr _ hfind
    obtain ⟨n, rfl⟩ : ∃ n, fuel = n + 1 :=
      ⟨fuel - 1, (Nat.succ_pred_eq_of_pos hk).symm⟩
    rw [Function.iterate_zero, id_eq] at hfind ⊢
    simp only [getRateLoop, hfind, if_neg hr]
  | succ k ih =>
    intro fuel d r hk hr hmiss hfind
    obtain ⟨n, rfl⟩ : ∃ n, fuel = n + 1 :=
      ⟨fuel - 1, (Nat.succ_pred_eq_of_pos ((Nat.zero_le _).trans_lt hk)).symm⟩
    have h0 := hmiss 0 (Nat.succ_pos k)
    rw [Function.iterate_zero, id_eq] at h0
    rw [Function.iterate_succ_apply] at hfind ⊢
    simp only [getRateLoop, h0]
    exact ih n (prevDay d) r (Nat.lt_of_succ_lt_succ hk) hr
      (fun j hj => by
        have hj1 := hmiss (j + 1) (Nat.succ_lt_succ hj)
        rwa [Function.iterate_succ_apply] at hj1)
      hfind

/-- C1 (corrected: an entry is found only when its stored rate is
nonzero, since `if (rates[key])` is falsy at 0): a nonzero entry at the
date itself is returned with that date as `dateUsed`; and when the first
`k ≤ 9` probes miss and day `date−k` holds a nonzero rate, that rate is
returned with `dateUsed = date−k`. -/
theorem getRateForDate_entry_hit (rates : RatesMap) (date : Date) :
    (∀ r : ℚ, r ≠ 0 → lookupRate rates date = some r →
      getRateForDate date rates = ⟨r, some date⟩) ∧
    (∀ (k : ℕ) (r : ℚ), 1 ≤ k → k ≤ 9 → r ≠ 0 →
      (∀ j < k, lookupRate rates (prevDay^[j] date) = none) →
      lookupRate rates (prevDay^[k] date) = some r →
      getRateForDate date rates = ⟨r, some (prevDay^[k] date)⟩) := by
  constructor
  · intro r hr hfind
    have h := getRateLoop_hit rates 0 10 date r (by norm_num) hr
      (fun j hj => absurd hj (Nat.not_lt_zero j))
      (by rwa [Function.iterate_zero, id_eq])
    rwa [Function.iterate_zero, id_eq] at h
  · intro k r _ hk9 hr hmiss hfind
    exact getRateLoop_hit rates k 10 date r (lt_of_le_of_lt hk9 (by norm_num)) hr
      hmiss hfind

/-- Witness for C1: in `wTbl`, 2023-03-06 and 2023-03-05 are absent and
2023-03-04 stores 14, so the lookup for 2023-03-06 falls back two days. -/
theorem getRateForDate_entry_hit_witness :
    getRateForDate ⟨2023, 3, 6⟩ wTbl = ⟨14, some (prevDay^[2] ⟨2023, 3, 6⟩)⟩ :=
  (getRateForDate_entry_hit wTbl ⟨2023, 3, 6⟩).2 2 14 (by norm_num) (by norm_num)
    (by norm_num) (by with_unfolding_all decide) (by with_unfolding_all decide)

/-- Counterexample to C1 as stated: `zTbl` has an entry for 2023-03-04
(storing rate 0), yet the claim's promised result — that stored rate with
`dateUsed` the exact date — is not returned: the falsy entry is skipped
and the previous day's rate 5 is returned instead. -/
theorem getRateForDate_zero_entry_cex :
    lookupRate zTbl ⟨2023, 3, 4⟩ = some 0 ∧
    getRateForDate ⟨2023, 3, 4⟩ zTbl = ⟨5, some ⟨2023, 3, 3⟩⟩ ∧
    getRateForDate ⟨2023, 3, 4⟩ zTbl ≠ ⟨0, some ⟨2023, 3, 4⟩⟩ := by
  with_unfolding_all decide

/-- C2 (confirmed): when none of the 10 probed days (the date itself and
the 9 prior days) has an entry, `getRateForDate` returns rate 0 and the
`'N/A'` sentinel. -/
theorem getRateForDate_window_miss (rates : RatesMap) (date : Date)
    (h : ∀ j < 10, lookupRate rates (prevDay^[j] date) = none) :
    getRateForDate date rates = ⟨0, none⟩ :=
  getRateLoop_miss rates 10 date h

/-- Witness for C2: the empty table has no entry anywhere. -/
theorem getRateForDate_window_miss_witness :
    getRateForDate ⟨2024, 1, 15⟩ ([] : RatesMap) = ⟨0, none⟩ :=
  getRateForDate_window_miss ([] : RatesMap) ⟨2024, 1, 15⟩ (by with_unfolding_all decide)

/-- Field equations of a successfully derived capital-gains record: the
identity is the row index, and the JPY amounts are the floored products
with the difference taken after flooring. -/
theorem calcGainLossRow_fields {idx : ℕ} {row : GainLossRow} {rates : RatesMap}
    {t : JpyTransaction} (h : calcGainLossRow idx row rates = some t) :
    t.id = idx ∧ t.gainLossJpy = t.proceedsJpy - t.costJpy ∧
    t.proceedsJpy = ⌊t.proceedsUsd * t.rateSold⌋ ∧
    t.costJpy = ⌊t.costUsd * t.rateAcquired⌋ := by
  unfold calcGainLossRow at h
  split at h
  · exact absurd h (by simp)
  · simp only [Option.some.injEq] at h
    subst h
    exact ⟨rfl, rfl, rfl, rfl⟩

/-- Field equations of a successfully derived dividend record. -/
theorem calcDividendRow_fields {idx : ℕ} {row : HistoryRow} {rates : RatesMap}
    {d : DividendTransaction} (h : calcDividendRow idx row rates = some d) :
    d.id = idx ∧ d.amountGrossUsd = d.amountNetUsd + d.taxUsd ∧
    d.amountGrossJpy = ⌊d.amountGrossUsd * d.rate⌋ ∧
    d.taxJpy = ⌊d.taxUsd * d.rate⌋ ∧
    d.amountNetJpy = ⌊d.amountNetUsd * d.rate⌋ := by
  unfold calcDividendRow at h
  split at h
  · exact absurd h (by simp)
  · simp only [Option.some.injEq] at h
    subst h
    exact ⟨rfl, rfl, rfl, rfl, rfl⟩

/-- The identity of a successfully derived interest record is the row
index. -/
theorem calcInterestRow_id {idx : ℕ} {row : HistoryRow} {rates : RatesMap}
    {i : InterestTransaction} (h : calcInterestRow idx row rates = some i) :
    i.id = idx := by
  unfold calcInterestRow at h
  split at h
  · exact absurd h (by simp)
  · simp only [Option.some.injEq] at h
    subst h
    rfl

/-- C3 (corrected: the sold-date substitution is applied to every
unparseable acquisition date, the various case included; the various
case is distinguished only by the note): a derived record whose source
acquisition date did not parse carries the sold date as its acquisition
date, and when the source text signals various, the various-date note. -/
theorem calcGainLossRow_various_subst (idx : ℕ) (row : GainLossRow) (rates : RatesMap)
    (t : JpyTransaction) (h : calcGainLossRow idx row rates = some t)
    (hacq : parseDateAny row.dateAcquired = none) :
    t.dateAcquired = some t.dateSold ∧
    (hasSub (lowerStr row.dateAcquired) "var" = true → t.notes = "取得日不明(Various)") := by
  unfold calcGainLossRow at h
  split at h
  · exact absurd h (by simp)
  · simp only [Option.some.injEq] at h
    subst h
    constructor
    · simp [hacq]
    · intro hv
      simp [hacq, hv]

/-- Witness for C3: the derived record of the `"VARIOUS"` row `vRow`. -/
theorem calcGainLossRow_various_subst_witness :
    vTx.dateAcquired = some vTx.dateSold ∧
    (hasSub (lowerStr vRow.dateAcquired) "var" = true → vTx.notes = "取得日不明(Various)") :=
  calcGainLossRow_various_subst 0 vRow wTbl vTx (by with_unfolding_all rfl)
    (by with_unfolding_all decide)

/-- Counterexample to C3 as stated: the record derived from the
`"VARIOUS"` row has its acquisition date set to the sold date
(2023-03-04) — not to null — while carrying the various-date note, so the
sold-date substitution is not reserved for non-various parse failures. -/
theorem calcGainLossRow_various_cex :
    calcGainLossRow 0 vRow wTbl = some vTx ∧
    vTx.dateAcquired = some ⟨2023, 3, 4⟩ ∧ vTx.dateAcquired ≠ none ∧
    vTx.notes = "取得日不明(Various)" :=
  ⟨by with_unfolding_all rfl, rfl, by with_unfolding_all decide, rfl⟩

/-- C4 (confirmed): every derived capital-gains record's JPY gain/loss
is the difference of the two already-floored JPY integers, each the
floor of the USD amount times its own rate. -/
theorem calculateGainLoss_floor_before_sub (rows : List GainLossRow) (rates : RatesMap)
    (t : JpyTransaction) (ht : t ∈ calculateGainLoss rows rates) :
    t.gainLossJpy = t.proceedsJpy - t.costJpy ∧
    t.proceedsJpy = ⌊t.proceedsUsd * t.rateSold⌋ ∧
    t.costJpy = ⌊t.costUsd * t.rateAcquired⌋ := by
  rw [calculateGainLoss, List.mem_filterMap] at ht
  obtain ⟨p, _, hp⟩ := ht
  exact (calcGainLossRow_fields hp).2

/-- Witness for C4 at the concrete record derived from `sRow`. -/
theorem calculateGainLoss_floor_before_sub_witness :
    sTx.gainLossJpy = sTx.proceedsJpy - sTx.costJpy ∧
    sTx.proceedsJpy = ⌊sTx.proceedsUsd * sTx.rateSold⌋ ∧
    sTx.costJpy = ⌊sTx.costUsd * sTx.rateAcquired⌋ :=
  calculateGainLoss_floor_before_sub [sRow] wTbl sTx (by with_unfolding_all decide)

/-- C5 (confirmed): every derived dividend record satisfies
`gross = net + tax` exactly in USD, and its three JPY amounts are
independently floored conversions; and there is a derived record whose
floored gross differs from floored tax plus floored net. -/
theorem calculateDividends_gross_net_tax :
    (∀ (rows : List HistoryRow) (rates : RatesMap) (d : DividendTransaction),
      d ∈ calculateDividends rows rates →
      d.amountGrossUsd = d.amountNetUsd + d.taxUsd ∧
      d.amountGrossJpy = ⌊d.amountGrossUsd * d.rate⌋ ∧
      d.taxJpy = ⌊d.taxUsd * d.rate⌋ ∧
      d.amountNetJpy = ⌊d.amountNetUsd * d.rate⌋) ∧
    (∃ (rows : List HistoryRow) (rates : RatesMap) (d : DividendTransaction),
      d ∈ calculateDividends rows rates ∧
      d.amountGrossJpy ≠ d.taxJpy + d.amountNetJpy) := by
  constructor
  · intro rows rates d hd
    rw [calculateDividends, List.mem_filterMap] at hd
    obtain ⟨p, _, hp⟩ := hd
    exact (calcDividendRow_fields hp).2
  · exact ⟨[dRow], dTbl, dTx, by with_unfolding_all decide, by with_unfolding_all decide⟩

/-- Identities of an indexed `map … .filter(Boolean)` pipeline: mapping
the identity projection over the kept records is a sublist of the index
range and equals it exactly when nothing was dropped. -/
theorem filterMapIdx_ids {α β : Type} (f : ℕ → α → Option β) (g : β → ℕ)
    (hf : ∀ i a b, f i a = some b → g b = i) :
    ∀ (l : List α) (n : ℕ),
      (((List.enumFrom n l).filterMap (fun p => f p.1 p.2)).map g).Sublist
        (List.range' n l.length) ∧
      (((List.enumFrom n l).filterMap (fun p => f p.1 p.2)).length = l.length →
        ((List.enumFrom n l).filterMap (fun p => f p.1 p.2)).map g =
          List.range' n l.length) := by
  intro l
  induction l with
  | nil => intro n; exact ⟨List.Sublist.refl _, fun _ => rfl⟩
  | cons a l ih =>
    intro n
    cases hfa : f n a with
    | none =>
      have hrw : (List.enumFrom n (a :: l)).filterMap (fun p => f p.1 p.2) =
          (List.enumFrom (n + 1) l).filterMap (fun p => f p.1 p.2) := by
        rw [List.enumFrom, List.filterMap_cons_none (by simpa using hfa)]
      constructor
      · rw [hrw, List.length_cons, List.range'_succ]
        exact ((ih (n + 1)).1).cons n
      · intro hlen
        rw [hrw, List.length_cons] at hlen
        have hle := List.length_filterMap_le (fun p => f p.1 p.2) (List.enumFrom (n + 1) l)
        rw [List.enumFrom_length] at hle
        omega
    | some b =>
      have hgb : g b = n := hf n a b hfa
      have hrw : (List.enumFrom n (a :: l)).filterMap (fun p => f p.1 p.2) =
          b :: (List.enumFrom (n + 1) l).filterMap (fun p => f p.1 p.2) := by
        rw [List.enumFrom, List.filterMap_cons_some (by simpa using hfa)]
      constructor
      · rw [hrw, List.length_cons, List.range'_succ, List.map_cons, hgb]
        exact ((ih (n + 1)).1).cons₂ n
      · intro hlen
        rw [hrw, List.length_cons, List.length_cons] at hlen
        rw [hrw, List.length_cons, List.range'_succ, List.map_cons, hgb,
          (ih (n + 1)).2 (by omega)]

/-- C6 (corrected: the identity assigned to a record is its input row
index, so the sequence is strictly increasing but keeps a gap for every
dropped row; it is the dense sequence 0, 1, 2, … exactly when no input
row is dropped): for each of the three calculators, the output identity
sequence is a sublist of `0, …, rows.length − 1`, and equals
`0, …, rows.length − 1` when every row survives. -/
theorem calculators_ids (glRows : List GainLossRow) (hRows : List HistoryRow)
    (rates : RatesMap) :
    (((calculateGainLoss glRows rates).map (fun t => t.id)).Sublist
        (List.range glRows.length) ∧
      ((calculateGainLoss glRows rates).length = glRows.length →
        (calculateGainLoss glRows rates).map (fun t => t.id) =
          List.range glRows.length)) ∧
    (((calculateDividends hRows rates).map (fun d => d.id)).Sublist
        (List.range hRows.length) ∧
      ((calculateDividends hRows rates).length = hRows.length →
        (calculateDividends hRows rates).map (fun d => d.id) =
          List.range hRows.length)) ∧
    (((calculateInterests hRows rates).map (fun i => i.id)).Sublist
        (List.range hRows.length) ∧
      ((calculateInterests hRows rates).length = hRows.length →
        (calculateInterests hRows rates).map (fun i => i.id) =
          List.range hRows.length)) := by
  simp only [List.range_eq_range']
  rw [show calculateGainLoss glRows rates =
      (List.enumFrom 0 glRows).filterMap (fun p => calcGainLossRow p.1 p.2 rates) from rfl,
    show calculateDividends hRows rates =
      (List.enumFrom 0 hRows).filterMap (fun p => calcDividendRow p.1 p.2 rates) from rfl,
    show calculateInterests hRows rates =
      (List.enumFrom 0 hRows).filterMap (fun p => calcInterestRow p.1 p.2 rates) from rfl]
  exact ⟨filterMapIdx_ids (fun i r => calcGainLossRow i r rates) (fun t => t.id)
      (fun i a b hb => (calcGainLossRow_fields hb).1) glRows 0,
    filterMapIdx_ids (fun i r => calcDividendRow i r rates) (fun d => d.id)
      (fun i a b hb => (calcDividendRow_fields hb).1) hRows 0,
    filterMapIdx_ids (fun i r => calcInterestRow i r rates) (fun i => i.id)
      (fun i a b hb => calcInterestRow_id hb) hRows 0⟩

/-- Witness for C6: the identity sequence of the two-row input whose
first row is dropped is a sublist of `[0, 1]`. -/
theorem calculators_ids_witness :
    ((calculateGainLoss [pRow, sRow] wTbl).map (fun t => t.id)).Sublist
      (List.range 2) :=
  ((calculators_ids [pRow, sRow] [] wTbl).1).1

/-- Counterexample to C6 as stated: with the undateable row `pRow`
first, the single surviving record carries identity 1, not the dense
zero-based sequence `[0]`. -/
theorem calculateGainLoss_ids_cex :
    (calculateGainLoss [pRow, sRow] wTbl).map (fun t => t.id) = [1] ∧
    (calculateGainLoss [pRow, sRow] wTbl).map (fun t => t.id) ≠
      List.range (calculateGainLoss [pRow, sRow] wTbl).length := by
  with_unfolding_all decide

/-- C7 (corrected: the interest subset is extracted only when the
dividend subset is nonempty — an interest-only history file is rejected
with the no-dividend error): when some row has action `"Dividend"`, the
history branch returns exactly the action-`"Dividend"` rows and the
action-`"Interest"` rows, every other action dropped; when no row does,
it returns the error and extracts nothing. -/
theorem processHistoryRows_partition (rows : List HistoryRow) :
    (rows.filter (fun r => r.action == "Dividend") ≠ [] →
      processHistoryRows rows =
        Except.ok (rows.filter (fun r => r.action == "Dividend"),
          rows.filter (fun r => r.action == "Interest")) ∧
      (∀ r, r ∈ rows.filter (fun r => r.action == "Dividend") ↔
        r ∈ rows ∧ r.action = "Dividend") ∧
      (∀ r, r ∈ rows.filter (fun r => r.action == "Interest") ↔
        r ∈ rows ∧ r.action = "Interest")) ∧
    (rows.filter (fun r => r.action == "Dividend") = [] →
      processHistoryRows rows =
        Except.error "配当データ(Action=Dividend)が見つかりませんでした") := by
  constructor
  · intro hne
    refine ⟨?_, ?_, ?_⟩
    · rw [processHistoryRows]
      rw [if_neg (by simpa [List.isEmpty_iff] using hne)]
    · intro r
      simp [List.mem_filter]
    · intro r
      simp [List.mem_filter]
  · intro hnil
    rw [processHistoryRows]
    rw [if_pos (by simpa [List.isEmpty_iff] using hnil)]

/-- Witness for C7: a file with one dividend and one interest row is
partitioned into the two singleton subsets. -/
theorem processHistoryRows_partition_witness :
    processHistoryRows [hDivRow, hIntRow] = Except.ok ([hDivRow], [hIntRow]) :=
  ((processHistoryRows_partition [hDivRow, hIntRow]).1 (by with_unfolding_all decide)).1

/-- Counterexample to C7 as stated: an interest-only history file has a
nonempty interest subset, yet the branch returns the no-dividend error
and produces no subsets at all. -/
theorem processHistoryRows_interest_only_cex :
    List.filter (fun r => r.action == "Interest") [hIntRow] = [hIntRow] ∧
    processHistoryRows [hIntRow] =
      Except.error "配当データ(Action=Dividend)が見つかりませんでした" :=
  ⟨by with_unfolding_all decide, by with_unfolding_all rfl⟩

/-- C8 (confirmed): a header line containing `"sales proceeds"`
(case-insensitively) classifies as the capital-gains schema; one that
does not but contains both `"action"` and `"amount"` classifies as the
history schema. -/
theorem classifyHeader_cases (headerLine : String) :
    (hasSub (lowerStr headerLine) "sales proceeds" = true →
      classifyHeader headerLine = FileType.GAIN_LOSS) ∧
    (hasSub (lowerStr headerLine) "sales proceeds" = false →
      hasSub (lowerStr headerLine) "action" = true →
      hasSub (lowerStr headerLine) "amount" = true →
      classifyHeader headerLine = FileType.HISTORY) := by
  constructor
  · intro hs
    simp [classifyHeader, hs]
  · intro hs ha hm
    simp [classifyHeader, hs, ha, hm]

/-- Witness for C8 on a real Gain/Loss header line. -/
theorem classifyHeader_cases_witness :
    classifyHeader "Symbol,Quantity,Date Acquired,Date Sold,Sales Proceeds" =
      FileType.GAIN_LOSS :=
  (classifyHeader_cases _).1 (by with_unfolding_all decide)

/-- C9 (confirmed): a record is in the year-filtered view exactly when
it is in the underlying collection and its governing date's calendar
year is the selected year; the view is a sublist of the collection,
which the pure filter leaves unchanged. -/
theorem yearFilter_mem (gl : List JpyTransaction) (dv : List DividendTransaction)
    (it : List InterestTransaction) (y : ℤ) :
    (∀ t, t ∈ filteredGainLoss gl y ↔ t ∈ gl ∧ t.dateSold.year = y) ∧
    (∀ d, d ∈ filteredDividends dv y ↔ d ∈ dv ∧ d.date.year = y) ∧
    (∀ i, i ∈ filteredInterests it y ↔ i ∈ it ∧ i.date.year = y) ∧
    (filteredGainLoss gl y).Sublist gl ∧
    (filteredDividends dv y).Sublist dv ∧
    (filteredInterests it y).Sublist it := by
  refine ⟨?_, ?_, ?_, List.filter_sublist _, List.filter_sublist _, List.filter_sublist _⟩
  · intro t
    simp [filteredGainLoss, List.mem_filter]
  · intro d
    simp [filteredDividends, List.mem_filter]
  · intro i
    simp [filteredInterests, List.mem_filter]

/-- Witness for C9: the singleton 2023 collection filtered at 2023 is a
sublist of itself. -/
theorem yearFilter_mem_witness :
    (filteredGainLoss [sTx] 2023).Sublist [sTx] :=
  (yearFilter_mem [sTx] [] [] 2023).2.2.2.1

/-- Every record produced by the capital-gains calculator satisfies the
floored-difference invariant. -/
theorem gainLoss_inv_of_mem {rows : List GainLossRow} {rates : RatesMap}
    {t : JpyTransaction} (ht : t ∈ calculateGainLoss rows rates) :
    t.gainLossJpy = t.proceedsJpy - t.costJpy := by
  rw [calculateGainLoss, List.mem_filterMap] at ht
  obtain ⟨p, _, hp⟩ := ht
  exact (calcGainLossRow_fields hp).2.1

/-- The totals fold preserves the gain/loss-equals-proceeds-minus-cost
relation between the accumulated JPY integers. -/
theorem totalsFold_inv (ts : List JpyTransaction) :
    ∀ acc : GLTotals, (∀ t ∈ ts, t.gainLossJpy = t.proceedsJpy - t.costJpy) →
      acc.gainLoss = acc.proceeds - acc.cost →
      (ts.foldl totalsStep acc).gainLoss =
        (ts.foldl totalsStep acc).proceeds - (ts.foldl totalsStep acc).cost := by
  induction ts with
  | nil => intro acc _ hacc; exact hacc
  | cons t ts ih =>
    intro acc hts hacc
    rw [List.foldl_cons]
    refine ih (totalsStep acc t) (fun u hu => hts u (List.mem_cons_of_mem t hu)) ?_
    have ht := hts t (List.mem_cons_self t ts)
    simp only [totalsStep]
    omega

/-- The per-group fold preserves the same relation on the group summary. -/
theorem groupFold_inv (ts : List JpyTransaction) :
    ∀ g : GroupData, (∀ t ∈ ts, t.gainLossJpy = t.proceedsJpy - t.costJpy) →
      g.summary.gainLoss = g.summary.proceeds - g.summary.cost →
      (ts.foldl addToGroup g).summary.gainLoss =
        (ts.foldl addToGroup g).summary.proceeds -
          (ts.foldl addToGroup g).summary.cost := by
  induction ts with
  | nil => intro g _ hg; exact hg
  | cons t ts ih =>
    intro g hts hg
    rw [List.foldl_cons]
    refine ih (addToGroup g t) (fun u hu => hts u (List.mem_cons_of_mem t hu)) ?_
    have ht := hts t (List.mem_cons_self t ts)
    simp only [addToGroup]
    omega

/-- Inserting into the sorted group list is a permutation of consing. -/
theorem insertGroup_perm (x : String × GroupData) (l : List (String × GroupData)) :
    (insertGroup x l).Perm (x :: l) := by
  induction l with
  | nil => exact List.Perm.refl _
  | cons y ys ih =>
    rw [insertGroup]
    split
    · exact List.Perm.refl _
    · exact (ih.cons y).trans (List.Perm.swap x y ys)

/-- The group sort is a permutation. -/
theorem sortGroups_perm (l : List (String × GroupData)) : (sortGroups l).Perm l := by
  induction l with
  | nil => exact List.Perm.refl _
  | cons x xs ih =>
    rw [sortGroups, List.foldr_cons]
    exact (insertGroup_perm x _).trans (ih.cons x)

/-- Every entry of `groupedGainLoss` is the accumulated group of its own
symbol. -/
theorem mem_groupedGainLoss {ts : List JpyTransaction} {p : String × GroupData}
    (hp : p ∈ groupedGainLoss ts) : p.2 = groupFor ts p.1 := by
  rw [groupedGainLoss] at hp
  have hmem := (sortGroups_perm _).mem_iff.mp hp
  rw [List.mem_map] at hmem
  obtain ⟨s, _, rfl⟩ := hmem
  rfl

/-- A symbol's accumulated group satisfies the summary relation when all
the underlying records do. -/
theorem groupFor_inv {ts : List JpyTransaction}
    (hts : ∀ t ∈ ts, t.gainLossJpy = t.proceedsJpy - t.costJpy) (s : String) :
    (groupFor ts s).summary.gainLoss =
      (groupFor ts s).summary.proceeds - (groupFor ts s).summary.cost := by
  rw [groupFor]
  exact groupFold_inv _ emptyGroup
    (fun t ht => hts t (List.mem_of_mem_filter ht)) rfl

/-- C10 (confirmed): for the year-filtered output of the capital-gains
calculator, every symbol group's summed JPY gain/loss equals its summed
JPY proceeds minus its summed JPY cost, and the overall totals satisfy
the same equation. -/
theorem groupedGainLoss_sum_consistent (rows : List GainLossRow) (rates : RatesMap)
    (y : ℤ) :
    (∀ p ∈ groupedGainLoss (filteredGainLoss (calculateGainLoss rows rates) y),
      p.2.summary.gainLoss = p.2.summary.proceeds - p.2.summary.cost) ∧
    (totalsGainLoss (filteredGainLoss (calculateGainLoss rows rates) y)).gainLoss =
      (totalsGainLoss (filteredGainLoss (calculateGainLoss rows rates) y)).proceeds -
        (totalsGainLoss (filteredGainLoss (calculateGainLoss rows rates) y)).cost := by
  have hts : ∀ t ∈ filteredGainLoss (calculateGainLoss rows rates) y,
      t.gainLossJpy = t.proceedsJpy - t.costJpy := by
    intro t ht
    rw [filteredGainLoss] at ht
    exact gainLoss_inv_of_mem (List.mem_of_mem_filter ht)
  constructor
  · intro p hp
    rw [mem_groupedGainLoss hp]
    exact groupFor_inv hts p.1
  · exact totalsFold_inv _ _ hts rfl

/-- Witness for C10 at the one-row input `sRow`: 80 = 210 − 130 at the
totals level. -/
theorem groupedGainLoss_sum_consistent_witness :
    (totalsGainLoss (filteredGainLoss (calculateGainLoss [sRow] wTbl) 2023)).gainLoss =
      (totalsGainLoss (filteredGainLoss (calculateGainLoss [sRow] wTbl) 2023)).proceeds -
        (totalsGainLoss (filteredGainLoss (calculateGainLoss [sRow] wTbl) 2023)).cost :=
  (groupedGainLoss_sum_consistent [sRow] wTbl 2023).2
